import Mathlib

/-!
Verification of the job_hunter MCP core: the RPC server loop, the tool
handlers, the worker orchestration, and the HTML/text extraction and
scoring algorithms (src-tauri/src/mcp.rs, analysis_agent.rs, settings.rs,
db.rs).

Strings are modelled as lists of unicode scalar values (`RStr`); Rust
byte-indexed slicing is modelled through the UTF-8 width of each scalar,
and a slice whose boundary falls inside a multi-byte character is `none`
(the Rust operation panics there).  External collaborators (the HTML
parser, serde deserialization, the HTTP client, the SQLite connection and
the settings store) are modelled as explicit parameters or explicit state,
exactly at the boundary where the source calls into them.
-/

namespace JobHunter

/-- A Rust string, as its list of unicode scalar values. -/
abbrev RStr := List Char

/-- Number of bytes of the UTF-8 encoding of one scalar value. -/
def charWidth (c : Char) : Nat :=
  if c.val.toNat < 0x80 then 1
  else if c.val.toNat < 0x800 then 2
  else if c.val.toNat < 0x10000 then 3
  else 4

/-- `s.len()` in Rust: the UTF-8 byte length. -/
def byteLen (s : RStr) : Nat := (s.map charWidth).sum

/-- `s[..n]` in Rust: the first `n` bytes.  `none` models the panic that
occurs when byte `n` is not a character boundary (or is out of range). -/
def byteSlice : RStr → Nat → Option RStr
  | _, 0 => some []
  | [], _ + 1 => none
  | c :: rest, n + 1 =>
      if charWidth c ≤ n + 1 then
        (byteSlice rest (n + 1 - charWidth c)).map (fun t => c :: t)
      else
        none

/-- The truncation pattern used by `fetch_content` and `extract_listing`:
keep the string if its byte length is within the bound, otherwise byte-slice
it (panicking — `none` — on a mid-character boundary). -/
def byteTruncate (s : RStr) (n : Nat) : Option RStr :=
  if byteLen s > n then byteSlice s n else some s

/-- The characters matched by the regex class `\s` and by `str::trim`
(the Unicode White_Space property). -/
def isWsRust (c : Char) : Bool :=
  (0x9 ≤ c.val.toNat && c.val.toNat ≤ 0xd) || c.val.toNat = 0x20 ||
  c.val.toNat = 0x85 || c.val.toNat = 0xa0 || c.val.toNat = 0x1680 ||
  (0x2000 ≤ c.val.toNat && c.val.toNat ≤ 0x200a) ||
  c.val.toNat = 0x2028 || c.val.toNat = 0x2029 ||
  c.val.toNat = 0x202f || c.val.toNat = 0x205f || c.val.toNat = 0x3000

/-- Rust `str::trim`. -/
def trimStr (s : RStr) : RStr :=
  ((s.dropWhile isWsRust).reverse.dropWhile isWsRust).reverse

/-- `Regex::new(r"\s+").replace_all(s, " ")`: every maximal run of
whitespace becomes a single space. -/
def collapseWs : RStr → RStr
  | [] => []
  | [c] => if isWsRust c then [' '] else [c]
  | c :: d :: rest =>
      if isWsRust c && isWsRust d then collapseWs (d :: rest)
      else (if isWsRust c then ' ' else c) :: collapseWs (d :: rest)

/-- `str::to_lowercase`, restricted to its ASCII action (no claim under
verification depends on non-ASCII case folding). -/
def lowerStr (s : RStr) : RStr := s.map Char.toLower

/-- Rust `str::starts_with`. -/
def startsWith : RStr → RStr → Bool
  | [], _ => true
  | _ :: _, [] => false
  | a :: as, b :: bs => a == b && startsWith as bs

/-- Rust `str::contains` with a string needle. -/
def isSubstr (needle : RStr) : RStr → Bool
  | [] => startsWith needle []
  | c :: rest => startsWith needle (c :: rest) || isSubstr needle rest

/-- `Vec<&str>::join(" ")`. -/
def joinSp : List RStr → RStr
  | [] => []
  | [s] => s
  | s :: t :: rest => s ++ ' ' :: joinSp (t :: rest)

/-- A `serde_json::Value`.  Numbers are modelled as exact rationals
(the source mixes u64/i64/f64 payloads in one `Number` type). -/
inductive Json where
  | null : Json
  | bool (b : Bool) : Json
  | num (q : ℚ) : Json
  | str (s : RStr) : Json
  | arr (elems : List Json) : Json
  | obj (fields : List (RStr × Json)) : Json

/-- Key lookup in the field list of an object (keys are distinct in every
object the source builds). -/
def Json.getField : List (RStr × Json) → RStr → Option Json
  | [], _ => none
  | (k, v) :: rest, key => if k = key then some v else Json.getField rest key

/-- `Value::get(key)` on an object; `None` on any other variant. -/
def Json.get (v : Json) (key : RStr) : Option Json :=
  match v with
  | .obj fields => Json.getField fields key
  | _ => none

/-- `Value::as_str`. -/
def Json.asStr : Json → Option RStr
  | .str s => some s
  | _ => none

/-- `Value::as_u64`: some only for a non-negative integral number that
fits in 64 bits. -/
def Json.asU64 (v : Json) : Option Nat :=
  match v with
  | .num q => if q.den = 1 ∧ 0 ≤ q.num ∧ q.num < 2 ^ 64 then some q.num.toNat else none
  | _ => none

/-- `Option<String>` serialized by serde_json: `None` becomes `null`. -/
def optStr : Option RStr → Json
  | some s => Json.str s
  | none => Json.null

/-- `JobSettings` from settings.rs. -/
structure JobSettings where
  preferred_titles : List RStr
  locations : List RStr
  keywords : List RStr
  remote_only : Bool
  salary_min : Option Int
  salary_max : Option Int
  company_blacklist : List RStr

/-- `JobSettings::default()` from settings.rs. -/
def defaultSettings : JobSettings where
  preferred_titles :=
    ["Software Engineer".toList, "Full Stack Engineer".toList,
     "Frontend Engineer".toList, "Backend Engineer".toList]
  locations := ["Remote".toList, "United States".toList]
  keywords :=
    ["TypeScript".toList, "React".toList, "Node.js".toList,
     "Rust".toList, "Tauri".toList, "Next.js".toList]
  remote_only := true
  salary_min := some 120000
  salary_max := some 200000
  company_blacklist := []

/-- One `<meta>` element: its `property`, `name` and `content` attributes. -/
structure MetaTag where
  property : Option RStr
  name : Option RStr
  content : Option RStr

/-- The outcome of `Html::parse_document`, abstracted to the views the
source takes of it: the text content of each `<title>` element, of each
`<h1>` element (both in document order), the `<meta>` elements, and every
text node of the document in order.  The parser itself is an external
library; functions below that need it take a `parse : RStr → HtmlDoc`
parameter. -/
structure HtmlDoc where
  titles : List RStr
  h1s : List RStr
  metas : List MetaTag
  textNodes : List RStr

/-- `attrs.attr("property").or_else(|| attrs.attr("name")).unwrap_or("")`
from `extract_company`. -/
def metaKey (m : MetaTag) : RStr :=
  match m.property with
  | some p => p
  | none => m.name.getD []

/-- The key test in `extract_company`:
`matches!(key, "og:site_name" | "application-name" | "company")`. -/
def metaMatches (m : MetaTag) : Prop :=
  metaKey m = "og:site_name".toList ∨ metaKey m = "application-name".toList ∨
    metaKey m = "company".toList

instance (m : MetaTag) : Decidable (metaMatches m) := by
  unfold metaMatches; infer_instance

/-- The meta scan loop of `extract_company`: the first matching tag that
carries a `content` attribute wins; a matching tag without `content` is
skipped. -/
def firstMetaContent : List MetaTag → Option RStr
  | [] => none
  | m :: rest =>
      if metaMatches m then
        match m.content with
        | some c => some c
        | none => firstMetaContent rest
      else firstMetaContent rest

/-- `extract_company` from analysis_agent.rs. -/
def extract_company (doc : HtmlDoc) : Option RStr :=
  firstMetaContent doc.metas

/-- `str::split` with a string separator, left-to-right non-overlapping
occurrences; implemented with fuel bounded by the string length (each
step consumes at least one character). -/
def splitGo (sep : RStr) : Nat → RStr → RStr → List RStr
  | 0, acc, s => [acc.reverse ++ s]
  | _ + 1, acc, [] => [acc.reverse]
  | fuel + 1, acc, c :: rest =>
      if sep ≠ [] ∧ startsWith sep (c :: rest) then
        acc.reverse :: splitGo sep fuel [] ((c :: rest).drop sep.length)
      else
        splitGo sep fuel (c :: acc) rest

/-- `value.split(sep).collect::<Vec<_>>()`. -/
def splitOnSep (sep s : RStr) : List RStr :=
  splitGo sep (s.length + 1) [] s

/-- `split_company_from_title` from analysis_agent.rs: try the separators
in the fixed order and return the trimmed last segment of the first one
that splits the title into at least two parts. -/
def split_company_from_title (value : RStr) : Option RStr :=
  let seps : List RStr := [" - ".toList, " | ".toList, " @ ".toList]
  match seps.find? (fun sep => decide (2 ≤ (splitOnSep sep value).length)) with
  | some sep => ((splitOnSep sep value).getLast?).map trimStr
  | none => none

/-- The character class of the location regex: letters, digits, space,
comma, dot, slash and dash. -/
def isLocChar (c : Char) : Bool :=
  (('A' ≤ c && c ≤ 'Z') || ('a' ≤ c && c ≤ 'z') || ('0' ≤ c && c ≤ '9') ||
   c == ' ' || c == ',' || c == '.' || c == '/' || c == '-')

/-- The class `[:\s]` between the literal `Location` and the capture. -/
def isLocSep (c : Char) : Bool := c == ':' || isWsRust c

/-- Attempt the tail of the location regex after the literal `Location`
has matched: `[:\s]+` (greedy, with backtracking down to `k` separator
characters) followed by the capture of 3 to 60 location-class characters. -/
def locCapture (s : RStr) : Nat → Option RStr
  | 0 => none
  | k + 1 =>
      let cap := ((s.drop (k + 1)).takeWhile isLocChar).take 60
      if 3 ≤ cap.length then some cap else locCapture s k

/-- `extract_location` from analysis_agent.rs: scan for the leftmost
position where the regex `Location` + `[:\s]+` + capture matches. -/
def locScan : RStr → Option RStr
  | [] => none
  | c :: rest =>
      if startsWith ("Location".toList) (c :: rest) then
        let tail := (c :: rest).drop 8
        match locCapture tail (tail.takeWhile isLocSep).length with
        | some cap => some cap
        | none => locScan rest
      else locScan rest

/-- `extract_location`: leftmost regex match, capture trimmed, none when
empty after trimming. -/
def extract_location (text : RStr) : Option RStr :=
  match locScan text with
  | some cap => if trimStr cap = [] then none else some (trimStr cap)
  | none => none

/-- `ExtractedListing` from analysis_agent.rs. -/
structure ExtractedListing where
  title : Option RStr
  company : Option RStr
  location : Option RStr
  text : RStr
  raw_excerpt : Option RStr

/-- The company computation inside `extract_listing`:
`extract_company(&document).or_else(|| title.and_then(split_company_from_title))`. -/
def companyOf (doc : HtmlDoc) (title : Option RStr) : Option RStr :=
  match extract_company doc with
  | some c => some c
  | none => title.bind split_company_from_title

/-- The title computation inside `extract_listing`: the text of the first
`<h1>` if non-blank, else the fallback title if non-blank, else none. -/
def titleOf (doc : HtmlDoc) (default_title : RStr) : Option RStr :=
  let fb : Option RStr :=
    if trimStr default_title = [] then none else some default_title
  match doc.h1s.head? with
  | some t => if trimStr t = [] then fb else some t
  | none => fb

/-- `extract_listing` from analysis_agent.rs.  `none` models the panic of
`text[..400]` when byte 400 of `text` is not a character boundary. -/
def extract_listing (doc : HtmlDoc) (text default_title : RStr) :
    Option ExtractedListing :=
  let title := titleOf doc default_title
  let company := companyOf doc title
  let location := extract_location text
  if byteLen text > 400 then
    match byteSlice text 400 with
    | some p =>
        some { title := title, company := company, location := location,
               text := text, raw_excerpt := some p }
    | none => none
  else if text = [] then
    some { title := title, company := company, location := location,
           text := text, raw_excerpt := none }
  else
    some { title := title, company := company, location := location,
           text := text, raw_excerpt := some text }

/-- `MatchResult` from analysis_agent.rs.  Scores are exact rationals
standing for the f64 arithmetic of the source, which on these operations
follows the same formula. -/
structure MatchResult where
  summary : RStr
  match_score : ℚ

/-- The summary template of `match_listing`.  The `{:.0}` float format is
modelled as `round` (the source rounds halves to even; no verified claim
inspects the summary text). -/
def summaryText (score : ℚ) (remoteOn : Bool) (title : Option RStr) : RStr :=
  "Matched ".toList ++ (toString (round score)).toList ++
  "% of keywords. Remote preference: ".toList ++
  (if remoteOn then "on".toList else "off".toList) ++
  ". Title signal: ".toList ++ title.getD ("unknown".toList) ++ ".".toList

/-- `match_listing` from analysis_agent.rs. -/
def match_listing (extracted : ExtractedListing) (settings : JobSettings) :
    MatchResult :=
  let text_lower := lowerStr extracted.text
  let hits : Nat :=
    (settings.keywords.filter (fun k => isSubstr (lowerStr k) text_lower)).length
  let score0 : ℚ :=
    if settings.keywords = [] then 50
    else ((hits : ℚ) / (settings.keywords.length : ℚ)) * 100
  let score1 : ℚ :=
    match extracted.title with
    | some t =>
        if settings.preferred_titles.any
            (fun v => !v.isEmpty && isSubstr (lowerStr v) (lowerStr t)) then
          score0 + 10
        else score0
    | none => score0
  let score2 : ℚ :=
    match extracted.location with
    | some lo =>
        if settings.locations.any
            (fun v => !v.isEmpty && isSubstr (lowerStr v) (lowerStr lo)) then
          score1 + 6
        else score1
    | none => score1
  let score3 : ℚ :=
    if settings.remote_only && isSubstr ("remote".toList) text_lower then
      score2 + 8
    else score2
  let score4 : ℚ :=
    match extracted.company with
    | some c =>
        if settings.company_blacklist.any
            (fun b => !b.isEmpty && isSubstr (lowerStr b) (lowerStr c)) then
          score3 - 15
        else score3
    | none => score3
  let score : ℚ := min (max score4 0) 100
  { summary := summaryText score settings.remote_only extracted.title,
    match_score := score }

/-- `MCP_VERSION` from mcp.rs. -/
def mcpVersion : RStr := "0.1".toList

/-- `tool_definitions()` from mcp.rs: the static table of the 8 tools. -/
def toolDefinitions : List Json :=
  [Json.obj [("name".toList, Json.str ("set_query_params".toList)),
     ("description".toList,
      Json.str ("Update the UI query parameters for the current analysis.".toList)),
     ("inputSchema".toList,
      Json.obj [("type".toList, Json.str ("object".toList)),
        ("properties".toList,
         Json.obj [("url".toList,
            Json.obj [("type".toList, Json.str ("string".toList))]),
           ("analysisId".toList,
            Json.obj [("type".toList, Json.str ("string".toList))])])])],
   Json.obj [("name".toList, Json.str ("fetch_content".toList)),
     ("description".toList,
      Json.str ("Retrieve HTML content for a given URL.".toList)),
     ("inputSchema".toList,
      Json.obj [("type".toList, Json.str ("object".toList)),
        ("properties".toList,
         Json.obj [("url".toList,
            Json.obj [("type".toList, Json.str ("string".toList))]),
           ("maxLength".toList,
            Json.obj [("type".toList, Json.str ("number".toList))])]),
        ("required".toList, Json.arr [Json.str ("url".toList)])])],
   Json.obj [("name".toList, Json.str ("reload_page".toList)),
     ("description".toList, Json.str ("Reload the current webview.".toList)),
     ("inputSchema".toList,
      Json.obj [("type".toList, Json.str ("object".toList))])],
   Json.obj [("name".toList, Json.str ("get_settings".toList)),
     ("description".toList,
      Json.str ("Load job-search settings from the Tauri store.".toList)),
     ("inputSchema".toList,
      Json.obj [("type".toList, Json.str ("object".toList))])],
   Json.obj [("name".toList, Json.str ("set_settings".toList)),
     ("description".toList,
      Json.str ("Persist job-search settings to the Tauri store.".toList)),
     ("inputSchema".toList,
      Json.obj [("type".toList, Json.str ("object".toList)),
        ("properties".toList,
         Json.obj [("settings".toList,
            Json.obj [("type".toList, Json.str ("object".toList))])])])],
   Json.obj [("name".toList, Json.str ("save_job_match".toList)),
     ("description".toList, Json.str ("Save a job match to SQLite.".toList)),
     ("inputSchema".toList,
      Json.obj [("type".toList, Json.str ("object".toList)),
        ("properties".toList,
         Json.obj [("analysis_id".toList,
            Json.obj [("type".toList, Json.str ("string".toList))]),
           ("url".toList,
            Json.obj [("type".toList, Json.str ("string".toList))]),
           ("title".toList,
            Json.obj [("type".toList, Json.str ("string".toList))]),
           ("company".toList,
            Json.obj [("type".toList, Json.str ("string".toList))]),
           ("location".toList,
            Json.obj [("type".toList, Json.str ("string".toList))]),
           ("match_score".toList,
            Json.obj [("type".toList, Json.str ("number".toList))]),
           ("summary".toList,
            Json.obj [("type".toList, Json.str ("string".toList))]),
           ("raw_excerpt".toList,
            Json.obj [("type".toList, Json.str ("string".toList))])])])],
   Json.obj [("name".toList, Json.str ("list_job_matches".toList)),
     ("description".toList, Json.str ("List recent job matches.".toList)),
     ("inputSchema".toList,
      Json.obj [("type".toList, Json.str ("object".toList)),
        ("properties".toList,
         Json.obj [("limit".toList,
            Json.obj [("type".toList, Json.str ("number".toList))])])])],
   Json.obj [("name".toList, Json.str ("clear_job_matches".toList)),
     ("description".toList, Json.str ("Clear saved job matches.".toList)),
     ("inputSchema".toList,
      Json.obj [("type".toList, Json.str ("object".toList))])]]

/-- The id field of a request, as read by `handle_client`:
`request.get("id").cloned().unwrap_or(Value::Null)`. -/
def reqId (v : Json) : Json := (v.get ("id".toList)).getD Json.null

/-- The method field of a request:
`request.get("method").and_then(as_str).unwrap_or("")`. -/
def reqMethod (v : Json) : RStr :=
  ((v.get ("method".toList)).bind Json.asStr).getD []

/-- The params field of a request. -/
def reqParams (v : Json) : Json :=
  (v.get ("params".toList)).getD (Json.obj [])

/-- The response envelope written for a line that fails JSON parsing. -/
def invalidJsonResponse (msg : RStr) : Json :=
  Json.obj [("id".toList, Json.null),
    ("error".toList,
     Json.obj [("message".toList, Json.str ("invalid json: ".toList ++ msg))])]

/-- The per-request dispatch of `handle_client`.  Tool execution performs
I/O in the source; it enters here as the oracle `tool`, which returns what
`handle_tool` would (`Ok(result)` or `Err(message)`). -/
def dispatch (tool : RStr → Json → Except RStr Json) (request : Json) : Json :=
  let id := reqId request
  let method := reqMethod request
  let params := reqParams request
  if method = "initialize".toList then
    Json.obj [("id".toList, id),
      ("result".toList,
       Json.obj [("protocolVersion".toList, Json.str mcpVersion),
         ("serverInfo".toList,
          Json.obj [("name".toList, Json.str ("job-hunter-mcp".toList)),
            ("version".toList, Json.str ("0.1.0".toList))])])]
  else if method = "list_tools".toList then
    Json.obj [("id".toList, id),
      ("result".toList, Json.obj [("tools".toList, Json.arr toolDefinitions)])]
  else if method = "call_tool".toList then
    let name := ((params.get ("name".toList)).bind Json.asStr).getD []
    let arguments := (params.get ("arguments".toList)).getD (Json.obj [])
    match tool name arguments with
    | .ok result => Json.obj [("id".toList, id), ("result".toList, result)]
    | .error err =>
        Json.obj [("id".toList, id),
          ("error".toList, Json.obj [("message".toList, Json.str err)])]
  else
    Json.obj [("id".toList, id),
      ("error".toList,
       Json.obj [("message".toList,
         Json.str ("unknown method: ".toList ++ method))])]

/-- One iteration of the `handle_client` read loop: a line either fails
JSON parsing (`Except.error` with the serde message) or is a parsed value. -/
def processLine (tool : RStr → Json → Except RStr Json)
    (line : Except RStr Json) : Json :=
  match line with
  | .error msg => invalidJsonResponse msg
  | .ok request => dispatch tool request

/-- `handle_client` from mcp.rs over the sequence of complete lines read
before the peer closes: the loop handles one line at a time and writes one
response per line, in order. -/
def handle_client (tool : RStr → Json → Except RStr Json)
    (lines : List (Except RStr Json)) : List Json :=
  lines.map (processLine tool)

/-- The id carried by a response envelope. -/
def envelopeId (v : Json) : Json := (v.get ("id".toList)).getD Json.null

/-- The id the server must echo for a line (null for an unparseable line). -/
def lineId : Except RStr Json → Json
  | .ok v => reqId v
  | .error _ => Json.null

/-- A request whose method is one of the three known ones. -/
def knownMethod (v : Json) : Prop :=
  reqMethod v = "initialize".toList ∨ reqMethod v = "list_tools".toList ∨
    reqMethod v = "call_tool".toList

/-- The fields of the JSON object returned by the `fetch_content` tool. -/
structure FetchOut where
  status : Nat
  url : RStr
  title : RStr
  html : RStr
  text : RStr

/-- Serialization of a `fetch_content` result to the response value. -/
def FetchOut.toJson (o : FetchOut) : Json :=
  Json.obj [("status".toList, Json.num (o.status : ℚ)),
    ("url".toList, Json.str o.url),
    ("title".toList, Json.str o.title),
    ("html".toList, Json.str o.html),
    ("text".toList, Json.str o.text)]

/-- The body of the `fetch_content` handler after argument extraction and
after the HTTP round trip produced `status` and the full body `body`.
`parse` stands for `Html::parse_document`; `none` models the panic of the
two byte slices on a mid-character boundary. -/
def fetch_core (parse : RStr → HtmlDoc) (status : Nat) (body : RStr)
    (url : RStr) (maxLength : Nat) : Option FetchOut :=
  match byteTruncate body maxLength with
  | none => none
  | some trimmed =>
    let doc := parse trimmed
    let title := (doc.titles.head?).getD []
    let text_raw := joinSp doc.textNodes
    let text := trimStr (collapseWs text_raw)
    match byteTruncate text 2000 with
    | none => none
    | some text_excerpt =>
        some { status := status, url := url, title := title,
               html := trimmed, text := text_excerpt }

/-- The `fetch_content` arm of `handle_tool`: `url` is required, and
`maxLength` defaults to 60000 when absent (or not a u64). -/
def fetch_content (parse : RStr → HtmlDoc) (status : Nat) (body : RStr)
    (arguments : Json) : Option (Except RStr Json) :=
  match (arguments.get ("url".toList)).bind Json.asStr with
  | none => some (.error ("url is required".toList))
  | some url =>
    let maxLength := ((arguments.get ("maxLength".toList)).bind Json.asU64).getD 60000
    (fetch_core parse status body url maxLength).map (fun o => .ok o.toJson)

/-- serde serialization of `JobSettings` (camelCase field names). -/
def strArr (l : List RStr) : Json := Json.arr (l.map Json.str)

/-- serde serialization of `Option<i64>`. -/
def optNum : Option Int → Json
  | some n => Json.num (n : ℚ)
  | none => Json.null

/-- serde serialization of a settings snapshot. -/
def settingsToJson (s : JobSettings) : Json :=
  Json.obj [("preferredTitles".toList, strArr s.preferred_titles),
    ("locations".toList, strArr s.locations),
    ("keywords".toList, strArr s.keywords),
    ("remoteOnly".toList, Json.bool s.remote_only),
    ("salaryMin".toList, optNum s.salary_min),
    ("salaryMax".toList, optNum s.salary_max),
    ("companyBlacklist".toList, strArr s.company_blacklist)]

/-- `load_settings` from settings.rs.  The store holds at most one value
under the settings key (`stored`); `deser` stands for
`serde_json::from_value::<JobSettings>` with its error message. -/
def load_settings (stored : Option Json)
    (deser : Json → Except RStr JobSettings) :
    Except RStr (Option JobSettings) :=
  match stored with
  | some v =>
      match deser v with
      | .ok s => .ok (some s)
      | .error e => .error ("settings parse: ".toList ++ e)
  | none => .ok none

/-- The `get_settings` arm of `handle_tool`, with the settings store as
explicit state: the pair is (tool result, store after the call). -/
def get_settings_tool (stored : Option Json)
    (deser : Json → Except RStr JobSettings) :
    Except RStr Json × Option Json :=
  (match load_settings stored deser with
   | .ok o =>
       .ok (Json.obj [("settings".toList, settingsToJson (o.getD defaultSettings))])
   | .error e => .error e,
   stored)

/-- `JobMatchInput` from db.rs. -/
structure JobMatchInput where
  analysis_id : Option RStr
  url : RStr
  title : Option RStr
  company : Option RStr
  location : Option RStr
  match_score : ℚ
  summary : RStr
  raw_excerpt : Option RStr

/-- `JobMatch` from db.rs. -/
structure JobMatch where
  id : RStr
  analysis_id : Option RStr
  url : RStr
  title : Option RStr
  company : Option RStr
  location : Option RStr
  match_score : ℚ
  summary : RStr
  created_at : RStr
  raw_excerpt : Option RStr

/-- serde serialization of a `JobMatch` (field-name keys). -/
def JobMatch.toJson (m : JobMatch) : Json :=
  Json.obj [("id".toList, Json.str m.id),
    ("analysis_id".toList, optStr m.analysis_id),
    ("url".toList, Json.str m.url),
    ("title".toList, optStr m.title),
    ("company".toList, optStr m.company),
    ("location".toList, optStr m.location),
    ("match_score".toList, Json.num m.match_score),
    ("summary".toList, Json.str m.summary),
    ("created_at".toList, Json.str m.created_at),
    ("raw_excerpt".toList, optStr m.raw_excerpt)]

/-- `Db::insert_match` from db.rs.  The SQLite table is modelled as the
list of inserted rows; `freshId` stands for `Uuid::new_v4()` and `nowTs`
for `Utc::now().to_rfc3339()`, both generated at insert time.  The row
written and the record returned are built from the same values. -/
def insert_match (freshId nowTs : RStr) (db : List JobMatch)
    (input : JobMatchInput) : JobMatch × List JobMatch :=
  let saved : JobMatch :=
    { id := freshId, analysis_id := input.analysis_id, url := input.url,
      title := input.title, company := input.company,
      location := input.location, match_score := input.match_score,
      summary := input.summary, created_at := nowTs,
      raw_excerpt := input.raw_excerpt }
  (saved, db ++ [saved])

/-- The `save_job_match` arm of `handle_tool`, with the record store as
explicit state.  `deser` stands for
`serde_json::from_value::<JobMatchInput>` with its error message. -/
def save_job_match_tool (deser : Json → Except RStr JobMatchInput)
    (freshId nowTs : RStr) (db : List JobMatch) (arguments : Json) :
    Except RStr Json × List JobMatch :=
  match deser arguments with
  | .error e => (.error ("job match parse: ".toList ++ e), db)
  | .ok input =>
      let r := insert_match freshId nowTs db input
      (.ok (Json.obj [("match".toList, JobMatch.toJson r.1)]), r.2)

/-- The RPC round trips performed by `run_inner` in analysis_agent.rs, in
workflow order. -/
inductive Step where
  | init
  | getSettings
  | fetchContent
  | saveJobMatch
  | setQueryParams
  | reloadPage
deriving DecidableEq, Repr

/-- Arguments of the `get_settings` call (step 3). -/
def gsArgs : Json := Json.obj []

/-- Arguments of the `fetch_content` call (step 4): the target url and
`maxLength: 120000`. -/
def fcArgs (url : RStr) : Json :=
  Json.obj [("url".toList, Json.str url),
    ("maxLength".toList, Json.num 120000)]

/-- Arguments of the `set_query_params` call (step 7a). -/
def sqpArgs (url : RStr) (analysisId : Option RStr) : Json :=
  Json.obj [("url".toList, Json.str url),
    ("analysisId".toList, optStr analysisId)]

/-- Arguments of the `save_job_match` call (step 6), carrying the derived
analysis fields. -/
def saveArgsOf (analysisId : Option RStr) (url : RStr)
    (extracted : ExtractedListing) (scored : MatchResult) : Json :=
  Json.obj [("analysis_id".toList, optStr analysisId),
    ("url".toList, Json.str url),
    ("title".toList, optStr extracted.title),
    ("company".toList, optStr extracted.company),
    ("location".toList, optStr extracted.location),
    ("match_score".toList, Json.num scored.match_score),
    ("summary".toList, Json.str scored.summary),
    ("raw_excerpt".toList, optStr extracted.raw_excerpt)]

/-- The settings value derived from the `get_settings` result:
`.get("settings").and_then(|v| from_value(v).ok()).unwrap_or_default()`.
A missing field or an undeserializable value silently falls back to the
built-in defaults. -/
def settingsOf (deser : Json → Option JobSettings) (sv : Json) : JobSettings :=
  ((sv.get ("settings".toList)).bind deser).getD defaultSettings

/-- A string field of the `fetch_content` result, defaulting to empty:
`.get(name).and_then(|v| v.as_str()).unwrap_or("")`. -/
def strField (v : Json) (name : RStr) : RStr :=
  ((v.get name).bind Json.asStr).getD []

/-- Worker trace after the `initialize` round trip. -/
def trace1 : List (Step × Json) := [(Step.init, Json.obj [])]

/-- Worker trace after the `get_settings` round trip. -/
def trace2 : List (Step × Json) := trace1 ++ [(Step.getSettings, gsArgs)]

/-- Worker trace after the `fetch_content` round trip. -/
def trace3 (url : RStr) : List (Step × Json) :=
  trace2 ++ [(Step.fetchContent, fcArgs url)]

/-- `run_inner` from analysis_agent.rs, after a successful connect.
`resp n` is the outcome of the n-th `McpClient::send` round trip (an error
envelope from the server or a transport failure surfaces as `Except.error`,
exactly what `send` returns); `deser` stands for
`serde_json::from_value::<JobSettings>(..).ok()`; `parse` for
`Html::parse_document`.  The result pairs the calls actually sent, with
their arguments, with the value `run_inner` returns.  Every `send` result
is bound with `let _ = ...?;` in the source: the value is discarded but an
error still aborts through `?`.  The outer `none` models the byte-slice
panic inside `extract_listing`. -/
def run_inner (resp : Nat → Except RStr Json)
    (deser : Json → Option JobSettings) (parse : RStr → HtmlDoc)
    (url : RStr) (analysisId : Option RStr) :
    Option (List (Step × Json) × Except RStr Unit) :=
  match resp 0 with
  | .error e => some (trace1, .error e)
  | .ok _ =>
  match resp 1 with
  | .error e => some (trace2, .error e)
  | .ok sv =>
  let settings := settingsOf deser sv
  match resp 2 with
  | .error e => some (trace3 url, .error e)
  | .ok cv =>
  let html := strField cv ("html".toList)
  let text := strField cv ("text".toList)
  let default_title := strField cv ("title".toList)
  match extract_listing (parse html) text default_title with
  | none => none
  | some extracted =>
  let scored := match_listing extracted settings
  let sArgs := saveArgsOf analysisId url extracted scored
  match resp 3 with
  | .error e => some (trace3 url ++ [(Step.saveJobMatch, sArgs)], .error e)
  | .ok _ =>
  match resp 4 with
  | .error e =>
      some (trace3 url ++ [(Step.saveJobMatch, sArgs),
        (Step.setQueryParams, sqpArgs url analysisId)], .error e)
  | .ok _ =>
  match resp 5 with
  | .error e =>
      some (trace3 url ++ [(Step.saveJobMatch, sArgs),
        (Step.setQueryParams, sqpArgs url analysisId),
        (Step.reloadPage, Json.obj [])], .error e)
  | .ok _ =>
      some (trace3 url ++ [(Step.saveJobMatch, sArgs),
        (Step.setQueryParams, sqpArgs url analysisId),
        (Step.reloadPage, Json.obj [])], .ok ())

/-! ## Helper lemmas -/

/-- A successful byte slice is a prefix of exactly `n` bytes. -/
theorem byteSlice_eq_some (s : RStr) :
    ∀ n t, byteSlice s n = some t → (∃ q, t ++ q = s) ∧ byteLen t = n := by
  induction s with
  | nil =>
      intro n t h
      cases n with
      | zero =>
          simp only [byteSlice, Option.some.injEq] at h
          subst h
          exact ⟨⟨[], rfl⟩, rfl⟩
      | succ n => simp [byteSlice] at h
  | cons c rest ih =>
      intro n t h
      cases n with
      | zero =>
          simp only [byteSlice, Option.some.injEq] at h
          subst h
          exact ⟨⟨c :: rest, rfl⟩, rfl⟩
      | succ n =>
          simp only [byteSlice] at h
          by_cases hw : charWidth c ≤ n + 1
          · rw [if_pos hw] at h
            rcases Option.map_eq_some'.mp h with ⟨t', ht', rfl⟩
            rcases ih _ _ ht' with ⟨⟨q, hq⟩, hlen⟩
            refine ⟨⟨q, by simp [← hq]⟩, ?_⟩
            simp only [byteLen, List.map_cons, List.sum_cons] at *
            omega
          · rw [if_neg hw] at h
            cases h

/-- A successful `byteTruncate` is a prefix within the bound, and the
whole string when the string already fits. -/
theorem byteTruncate_eq_some (s : RStr) (n : Nat) (t : RStr)
    (h : byteTruncate s n = some t) :
    (∃ q, t ++ q = s) ∧ byteLen t ≤ n ∧ (byteLen s ≤ n → t = s) := by
  unfold byteTruncate at h
  by_cases hl : byteLen s > n
  · rw [if_pos hl] at h
    rcases byteSlice_eq_some s n t h with ⟨hpre, hlen⟩
    exact ⟨hpre, le_of_eq hlen, fun hle => absurd hl (not_lt.mpr hle)⟩
  · rw [if_neg hl] at h
    cases h
    exact ⟨⟨[], by simp⟩, not_lt.mp hl, fun _ => rfl⟩

/-- The four fields of a successfully extracted listing other than the
excerpt. -/
theorem extract_listing_fields (doc : HtmlDoc) (text default_title : RStr)
    (r : ExtractedListing)
    (h : extract_listing doc text default_title = some r) :
    r.title = titleOf doc default_title ∧
    r.company = companyOf doc (titleOf doc default_title) ∧
    r.location = extract_location text ∧ r.text = text := by
  simp only [extract_listing] at h
  split at h
  · split at h
    · injection h with h; subst h; exact ⟨rfl, rfl, rfl, rfl⟩
    · cases h
  · split at h
    · injection h with h; subst h; exact ⟨rfl, rfl, rfl, rfl⟩
    · injection h with h; subst h; exact ⟨rfl, rfl, rfl, rfl⟩

/-- The excerpt of a successfully extracted listing. -/
theorem extract_listing_excerpt (doc : HtmlDoc) (text default_title : RStr)
    (r : ExtractedListing)
    (h : extract_listing doc text default_title = some r) :
    (400 < byteLen text →
      ∃ p, r.raw_excerpt = some p ∧ byteSlice text 400 = some p) ∧
    (byteLen text ≤ 400 → text ≠ [] → r.raw_excerpt = some text) ∧
    (text = [] → r.raw_excerpt = none) := by
  simp only [extract_listing] at h
  split at h
  case isTrue hgt =>
    split at h
    case _ p hp =>
      injection h with h; subst h
      refine ⟨fun _ => ⟨p, rfl, hp⟩, fun hle => absurd hgt (not_lt.mpr hle), ?_⟩
      rintro rfl
      simp [byteLen] at hgt
    case _ => cases h
  case isFalse hle =>
    split at h
    case isTrue hemp =>
      injection h with h; subst h
      exact ⟨fun hgt => absurd hgt hle, fun _ hne => absurd hemp hne,
        fun _ => rfl⟩
    case isFalse hemp =>
      injection h with h; subst h
      exact ⟨fun hgt => absurd hgt hle, fun _ _ => rfl, fun he => absurd he hemp⟩

/-! ## C4 — excerpt of the extraction engine -/

/-- C4 (amended): for every plain-text input on which the extraction
engine returns, the excerpt is the first 400 BYTES of the text when the
text is longer than 400 bytes, the full text when it is non-empty and not
longer than 400 bytes, and absent when the text is empty.  (The source
slices by bytes, not characters, and panics when byte 400 is not a
character boundary — the success hypothesis excludes exactly that case.) -/
theorem excerpt_claim (doc : HtmlDoc) (text default_title : RStr)
    (r : ExtractedListing)
    (h : extract_listing doc text default_title = some r) :
    (400 < byteLen text →
      ∃ p, r.raw_excerpt = some p ∧ (∃ q, p ++ q = text) ∧ byteLen p = 400) ∧
    (byteLen text ≤ 400 → text ≠ [] → r.raw_excerpt = some text) ∧
    (text = [] → r.raw_excerpt = none) := by
  rcases extract_listing_excerpt doc text default_title r h with ⟨h1, h2, h3⟩
  refine ⟨?_, h2, h3⟩
  intro hgt
  rcases h1 hgt with ⟨p, hp, hsl⟩
  rcases byteSlice_eq_some text 400 p hsl with ⟨hpre, hlen⟩
  exact ⟨p, hp, hpre, hlen⟩

/-- The text used by the C4 counterexample: 201 two-byte characters, so
201 characters but 402 bytes. -/
def c4text : RStr := List.replicate 201 'é'

set_option maxRecDepth 8000 in
/-- C4 counterexample: a non-empty text of 201 characters (at most 400
characters, so the claim requires the excerpt to be the full text), for
which the code stores only the first 200 characters — the slice is taken
at byte 400, not character 400. -/
theorem excerpt_claim_cex :
    (extract_listing (HtmlDoc.mk [] [] [] []) c4text []).map
        (fun r => r.raw_excerpt) = some (some (List.replicate 200 'é')) ∧
    c4text.length ≤ 400 ∧ c4text ≠ [] ∧ List.replicate 200 'é' ≠ c4text := by
  exact ⟨by decide, by decide, by decide, by decide⟩

/-- Concrete input for the C4 witness. -/
def c4doc : HtmlDoc := ⟨[], [], [], []⟩

/-- The listing extracted from the C4 witness input. -/
def c4r : ExtractedListing :=
  { title := none, company := none, location := none,
    text := "hello".toList, raw_excerpt := some ("hello".toList) }

/-- C4 witness: a five-byte text is kept whole as the excerpt. -/
theorem excerpt_claim_witness : c4r.raw_excerpt = some ("hello".toList) :=
  (excerpt_claim c4doc ("hello".toList) [] c4r rfl).2.1
    (by decide) (by decide)

/-! ## C5 — title of the extraction engine -/

/-- C5 (amended): the extracted title is the text of the FIRST `<h1>`
element when that text is non-blank; when the first `<h1>` is absent or
blank the supplied fallback title is used (later `<h1>` elements are never
consulted); when the fallback is also blank the title is absent. -/
theorem title_claim (doc : HtmlDoc) (text default_title : RStr)
    (r : ExtractedListing)
    (h : extract_listing doc text default_title = some r) :
    (∀ t rest, doc.h1s = t :: rest → trimStr t ≠ [] → r.title = some t) ∧
    (∀ t rest, doc.h1s = t :: rest → trimStr t = [] →
      trimStr default_title ≠ [] → r.title = some default_title) ∧
    (doc.h1s = [] → trimStr default_title ≠ [] →
      r.title = some default_title) ∧
    (trimStr default_title = [] →
      (doc.h1s = [] ∨ ∃ t rest, doc.h1s = t :: rest ∧ trimStr t = []) →
      r.title = none) := by
  have ht := (extract_listing_fields doc text default_title r h).1
  rw [ht]; unfold titleOf
  refine ⟨?_, ?_, ?_, ?_⟩
  · intro t rest hh hnb
    rw [hh]
    simp only [List.head?]
    rw [if_neg hnb]
  · intro t rest hh hb hnb
    rw [hh]
    simp only [List.head?]
    rw [if_pos hb, if_neg hnb]
  · intro hh hnb
    rw [hh]
    simp only [List.head?]
    rw [if_neg hnb]
  · intro hb hcase
    rcases hcase with hh | ⟨t, rest, hh, htb⟩
    · rw [hh]
      simp only [List.head?]
      rw [if_pos hb]
    · rw [hh]
      simp only [List.head?]
      rw [if_pos htb, if_pos hb]

/-- The document of the C5 counterexample: a blank first `<h1>` and a
non-empty second `<h1>`. -/
def c5doc : HtmlDoc := ⟨[], [" ".toList, "Jobs".toList], [], []⟩

/-- C5 counterexample: with a blank first `<h1>`, a second `<h1>` of
`"Jobs"` and fallback `"Fallback"`, the code returns the fallback — the
claim requires the second `<h1>` text `"Jobs"`. -/
theorem title_claim_cex :
    (extract_listing c5doc [] ("Fallback".toList)).map (fun r => r.title)
      = some (some ("Fallback".toList)) ∧
    ("Fallback".toList : RStr) ≠ "Jobs".toList := by
  exact ⟨by decide, by decide⟩

/-- Concrete input for the C5 witness. -/
def c5wdoc : HtmlDoc := ⟨[], ["Jobs".toList], [], []⟩

/-- The listing extracted from the C5 witness input. -/
def c5wr : ExtractedListing :=
  { title := some ("Jobs".toList), company := none, location := none,
    text := [], raw_excerpt := none }

/-- C5 witness: a non-blank first `<h1>` becomes the title. -/
theorem title_claim_witness : c5wr.title = some ("Jobs".toList) :=
  (title_claim c5wdoc [] [] c5wr rfl).1 ("Jobs".toList) [] rfl
    (by decide)

/-! ## C8 — company of the extraction engine -/

/-- When the separator never occurs, `str::split` yields the single whole
string. -/
theorem splitGo_of_not_substr (sep : RStr) :
    ∀ (s : RStr) (fuel : Nat) (acc : RStr), isSubstr sep s = false →
      s.length ≤ fuel → splitGo sep fuel acc s = [acc.reverse ++ s] := by
  intro s
  induction s with
  | nil =>
      intro fuel acc _ _
      cases fuel <;> simp [splitGo]
  | cons c rest ih =>
      intro fuel acc hsub hlen
      cases fuel with
      | zero => simp at hlen
      | succ f =>
          simp only [isSubstr, Bool.or_eq_false_iff] at hsub
          simp only [splitGo]
          rw [if_neg (fun hand => by simp [hsub.1] at hand)]
          rw [ih f (c :: acc) hsub.2
            (by simp only [List.length_cons] at hlen; omega)]
          simp [List.reverse_cons, List.append_assoc]

/-- Under the hypothesis that every matching `<meta>` carries a `content`
attribute, the scan loop returns the content of the first matching tag. -/
theorem firstMetaContent_eq_find (ms : List MetaTag)
    (hc : ∀ m ∈ ms, metaMatches m → m.content ≠ none) :
    firstMetaContent ms
      = (ms.find? (fun m => decide (metaMatches m))).bind MetaTag.content := by
  induction ms with
  | nil => rfl
  | cons m rest ih =>
      by_cases hm : metaMatches m
      · rw [List.find?_cons_of_pos _ (by simpa using hm)]
        simp only [firstMetaContent, if_pos hm, Option.some_bind]
        cases hcont : m.content with
        | some c => rfl
        | none => exact absurd hcont (hc m (List.mem_cons_self m rest) hm)
      · rw [List.find?_cons_of_neg _ (by simpa using hm)]
        simp only [firstMetaContent, if_neg hm]
        exact ih (fun x hx hmx => hc x (List.mem_cons_of_mem m hx) hmx)

/-- The document of the C8 scenario: one `<h1>`, no `<meta>` tags. -/
def c8scenarioDoc : HtmlDoc :=
  ⟨[], ["Senior Backend Engineer - Acme Corp".toList], [], []⟩

set_option maxRecDepth 4000 in
/-- C8: the extracted company is the `content` of the first `<meta>` tag
whose `property`/`name` key is `og:site_name`, `application-name` or
`company` (the hypothesis realizes the claim presupposition that a
matching tag carries a `content` attribute); when no meta matches, the
resolved title is split on the first separator, in the fixed order
`" - "`, `" | "`, `" @ "`, that produces at least two parts, and the
trailing segment, trimmed, is the company; with no separator the company
is absent.  In particular the scenario title
`"Senior Backend Engineer - Acme Corp"` with no matching meta yields title
equal to the full string and company `"Acme Corp"`. -/
theorem company_claim (doc : HtmlDoc) (title : RStr)
    (hc : ∀ m ∈ doc.metas, metaMatches m → m.content ≠ none) :
    (extract_company doc
      = (doc.metas.find? (fun m => decide (metaMatches m))).bind MetaTag.content) ∧
    (extract_company doc = none →
      companyOf doc (some title) = split_company_from_title title) ∧
    (split_company_from_title ("Senior Backend Engineer - Acme Corp".toList)
      = some ("Acme Corp".toList)) ∧
    (∀ v, isSubstr (" - ".toList) v = false → isSubstr (" | ".toList) v = false →
      isSubstr (" @ ".toList) v = false → split_company_from_title v = none) ∧
    ((extract_listing c8scenarioDoc [] []).map (fun r => (r.title, r.company))
      = some (some ("Senior Backend Engineer - Acme Corp".toList),
              some ("Acme Corp".toList))) := by
  refine ⟨firstMetaContent_eq_find doc.metas hc, ?_, by decide, ?_, by decide⟩
  · intro hnone
    unfold companyOf
    rw [hnone]
    rfl
  · intro v h1 h2 h3
    have e1 : splitOnSep ([' ', '-', ' '] : RStr) v = [v] := by
      unfold splitOnSep
      rw [splitGo_of_not_substr ([' ', '-', ' '] : RStr) v (v.length + 1) [] h1 (Nat.le_succ _)]
      rfl
    have e2 : splitOnSep ([' ', '|', ' '] : RStr) v = [v] := by
      unfold splitOnSep
      rw [splitGo_of_not_substr ([' ', '|', ' '] : RStr) v (v.length + 1) [] h2 (Nat.le_succ _)]
      rfl
    have e3 : splitOnSep ([' ', '@', ' '] : RStr) v = [v] := by
      unfold splitOnSep
      rw [splitGo_of_not_substr ([' ', '@', ' '] : RStr) v (v.length + 1) [] h3 (Nat.le_succ _)]
      rfl
    simp [split_company_from_title, e1, e2, e3]

/-- The meta list of the C8 witness. -/
def c8doc : HtmlDoc :=
  ⟨[], [], [⟨some ("og:site_name".toList), none, some ("Acme".toList)⟩], []⟩

/-- C8 witness: one matching meta with content, and the scenario split. -/
theorem company_claim_witness :
    (extract_company c8doc
      = (c8doc.metas.find? (fun m => decide (metaMatches m))).bind MetaTag.content) ∧
    (split_company_from_title ("Senior Backend Engineer - Acme Corp".toList)
      = some ("Acme Corp".toList)) :=
  ⟨(company_claim c8doc [] (by decide)).1,
   (company_claim c8doc [] (by decide)).2.2.1⟩

/-! ## C3 — the scoring engine -/

/-- Spec wording, base score: 50 for an empty keyword list, otherwise the
fraction of keywords whose lowercase form occurs in the lowercased text,
times 100. -/
def specKeywordBase (s : JobSettings) (text : RStr) : ℚ :=
  if s.keywords = [] then 50
  else ((s.keywords.filter
          (fun k => isSubstr (lowerStr k) (lowerStr text))).length : ℚ)
        / (s.keywords.length : ℚ) * 100

/-- Spec wording: some non-empty preferred title is a case-insensitive
substring of the extracted title. -/
def specTitleHit (s : JobSettings) (e : ExtractedListing) : Prop :=
  ∃ t, e.title = some t ∧ ∃ p ∈ s.preferred_titles,
    p ≠ [] ∧ isSubstr (lowerStr p) (lowerStr t) = true

/-- Spec wording: some non-empty target location is a case-insensitive
substring of the extracted location. -/
def specLocationHit (s : JobSettings) (e : ExtractedListing) : Prop :=
  ∃ lo, e.location = some lo ∧ ∃ l ∈ s.locations,
    l ≠ [] ∧ isSubstr (lowerStr l) (lowerStr lo) = true

/-- Spec wording: `remote_only` is set and the lowercased text contains
"remote". -/
def specRemoteHit (s : JobSettings) (e : ExtractedListing) : Prop :=
  s.remote_only = true ∧ isSubstr ("remote".toList) (lowerStr e.text) = true

/-- Spec wording: some non-empty blacklisted company is a case-insensitive
substring of the extracted company. -/
def specBlacklistHit (s : JobSettings) (e : ExtractedListing) : Prop :=
  ∃ c, e.company = some c ∧ ∃ b ∈ s.company_blacklist,
    b ≠ [] ∧ isSubstr (lowerStr b) (lowerStr c) = true

/-- The title bonus exactly as the code computes it. -/
def codeTitleBonus (s : JobSettings) (e : ExtractedListing) : ℚ :=
  match e.title with
  | some t =>
      if s.preferred_titles.any
          (fun v => !v.isEmpty && isSubstr (lowerStr v) (lowerStr t)) then 10
      else 0
  | none => 0

/-- The location bonus exactly as the code computes it. -/
def codeLocationBonus (s : JobSettings) (e : ExtractedListing) : ℚ :=
  match e.location with
  | some lo =>
      if s.locations.any
          (fun v => !v.isEmpty && isSubstr (lowerStr v) (lowerStr lo)) then 6
      else 0
  | none => 0

/-- The remote bonus exactly as the code computes it. -/
def codeRemoteBonus (s : JobSettings) (e : ExtractedListing) : ℚ :=
  if s.remote_only && isSubstr ("remote".toList) (lowerStr e.text) then 8
  else 0

/-- The blacklist penalty exactly as the code computes it. -/
def codeBlacklistPenalty (s : JobSettings) (e : ExtractedListing) : ℚ :=
  match e.company with
  | some c =>
      if s.company_blacklist.any
          (fun b => !b.isEmpty && isSubstr (lowerStr b) (lowerStr c)) then 15
      else 0
  | none => 0

/-- `!l.isEmpty` is Rust `!value.is_empty()`. -/
theorem not_isEmpty_iff (l : RStr) : (!l.isEmpty) = true ↔ l ≠ [] := by
  cases l <;> simp

/-- The sequential accumulation of `match_listing` equals the additive
decomposition. -/
theorem match_score_decompose (e : ExtractedListing) (s : JobSettings) :
    (match_listing e s).match_score
      = min (max (specKeywordBase s e.text + codeTitleBonus s e
          + codeLocationBonus s e + codeRemoteBonus s e
          - codeBlacklistPenalty s e) 0) 100 := by
  unfold match_listing codeTitleBonus codeLocationBonus codeRemoteBonus
    codeBlacklistPenalty specKeywordBase
  dsimp only
  rcases e with ⟨title, company, location, text, excerpt⟩
  dsimp only
  cases title <;> cases location <;> cases company <;>
    (dsimp only; split_ifs <;> ring_nf)

/-- Converting the spec-worded title condition to the code condition. -/
theorem specTitleHit_eq (s : JobSettings) (e : ExtractedListing)
    [inst : Decidable (specTitleHit s e)] :
    (if specTitleHit s e then (10 : ℚ) else 0) = codeTitleBonus s e := by
  unfold codeTitleBonus
  cases h : e.title with
  | none =>
      rw [if_neg]
      rintro ⟨t, ht, _⟩
      rw [h] at ht
      cases ht
  | some t =>
      have hiff : specTitleHit s e ↔
          (s.preferred_titles.any
            (fun v => !v.isEmpty && isSubstr (lowerStr v) (lowerStr t))) = true := by
        unfold specTitleHit
        rw [h]
        simp [List.any_eq_true, Bool.and_eq_true, not_isEmpty_iff]
      dsimp only
      by_cases hb : (s.preferred_titles.any
          (fun v => !v.isEmpty && isSubstr (lowerStr v) (lowerStr t))) = true
      · rw [if_pos (hiff.mpr hb), if_pos hb]
      · rw [if_neg (fun hs => hb (hiff.mp hs)), if_neg hb]

/-- Converting the spec-worded location condition to the code condition. -/
theorem specLocationHit_eq (s : JobSettings) (e : ExtractedListing)
    [inst : Decidable (specLocationHit s e)] :
    (if specLocationHit s e then (6 : ℚ) else 0) = codeLocationBonus s e := by
  unfold codeLocationBonus
  cases h : e.location with
  | none =>
      rw [if_neg]
      rintro ⟨lo, hlo, _⟩
      rw [h] at hlo
      cases hlo
  | some lo =>
      have hiff : specLocationHit s e ↔
          (s.locations.any
            (fun v => !v.isEmpty && isSubstr (lowerStr v) (lowerStr lo))) = true := by
        unfold specLocationHit
        rw [h]
        simp [List.any_eq_true, Bool.and_eq_true, not_isEmpty_iff]
      dsimp only
      by_cases hb : (s.locations.any
          (fun v => !v.isEmpty && isSubstr (lowerStr v) (lowerStr lo))) = true
      · rw [if_pos (hiff.mpr hb), if_pos hb]
      · rw [if_neg (fun hs => hb (hiff.mp hs)), if_neg hb]

/-- Converting the spec-worded remote condition to the code condition. -/
theorem specRemoteHit_eq (s : JobSettings) (e : ExtractedListing)
    [inst : Decidable (specRemoteHit s e)] :
    (if specRemoteHit s e then (8 : ℚ) else 0) = codeRemoteBonus s e := by
  unfold codeRemoteBonus specRemoteHit
  by_cases hb : (s.remote_only && isSubstr ("remote".toList) (lowerStr e.text)) = true
  · have hb2 : s.remote_only = true ∧
        isSubstr ("remote".toList) (lowerStr e.text) = true := by
      simpa [Bool.and_eq_true] using hb
    rw [if_pos hb2, if_pos hb]
  · have hb2 : ¬(s.remote_only = true ∧
        isSubstr ("remote".toList) (lowerStr e.text) = true) := by
      intro hs
      apply hb
      rw [Bool.and_eq_true]
      exact hs
    rw [if_neg hb2, if_neg hb]

/-- Converting the spec-worded blacklist condition to the code condition. -/
theorem specBlacklistHit_eq (s : JobSettings) (e : ExtractedListing)
    [inst : Decidable (specBlacklistHit s e)] :
    (if specBlacklistHit s e then (15 : ℚ) else 0) = codeBlacklistPenalty s e := by
  unfold codeBlacklistPenalty
  cases h : e.company with
  | none =>
      rw [if_neg]
      rintro ⟨c, hc, _⟩
      rw [h] at hc
      cases hc
  | some c =>
      have hiff : specBlacklistHit s e ↔
          (s.company_blacklist.any
            (fun b => !b.isEmpty && isSubstr (lowerStr b) (lowerStr c))) = true := by
        unfold specBlacklistHit
        rw [h]
        simp [List.any_eq_true, Bool.and_eq_true, not_isEmpty_iff]
      dsimp only
      by_cases hb : (s.company_blacklist.any
          (fun b => !b.isEmpty && isSubstr (lowerStr b) (lowerStr c))) = true
      · rw [if_pos (hiff.mpr hb), if_pos hb]
      · rw [if_neg (fun hs => hb (hiff.mp hs)), if_neg hb]

open Classical in
/-- C3: for every extracted listing and settings snapshot, the score is
the claimed formula — base 50 for an empty keyword list, else the fraction
of matched keywords times 100, plus 10 for a preferred-title hit, plus 6
for a location hit, plus 8 for a remote hit, minus 15 for a blacklist hit,
clamped to the interval from 0 to 100 — and therefore always lies in that
interval. -/
theorem match_listing_claim (e : ExtractedListing) (s : JobSettings) :
    ((match_listing e s).match_score
      = min (max (specKeywordBase s e.text
          + (if specTitleHit s e then 10 else 0)
          + (if specLocationHit s e then 6 else 0)
          + (if specRemoteHit s e then 8 else 0)
          - (if specBlacklistHit s e then 15 else 0)) 0) 100) ∧
    0 ≤ (match_listing e s).match_score ∧
    (match_listing e s).match_score ≤ 100 := by
  refine ⟨?_, ?_, ?_⟩
  · rw [specTitleHit_eq, specLocationHit_eq, specRemoteHit_eq,
      specBlacklistHit_eq]
    exact match_score_decompose e s
  · rw [match_score_decompose e s]
    exact le_min (le_max_right _ _) (by norm_num)
  · rw [match_score_decompose e s]
    exact min_le_right _ _

/-! ## C6, C7 — the server read-dispatch-write loop -/

/-- Every dispatch branch echoes the id of the request it answers. -/
theorem dispatch_id (tool : RStr → Json → Except RStr Json) (v : Json) :
    envelopeId (dispatch tool v) = reqId v := by
  unfold dispatch
  dsimp only
  split_ifs <;> first
    | rfl
    | (split <;> rfl)

/-- Each processed line is answered with its own id. -/
theorem processLine_id (tool : RStr → Json → Except RStr Json)
    (line : Except RStr Json) :
    envelopeId (processLine tool line) = lineId line := by
  cases line with
  | error msg => rfl
  | ok v => exact dispatch_id tool v

/-- C6: for every sequence of well-formed request lines with known
methods on one connection, the server emits exactly one response envelope
per request, the ids of the responses are the ids of the requests, and
they come in the order the requests were received (the response at each
position answers the request at the same position). -/
theorem handle_client_one_response (tool : RStr → Json → Except RStr Json)
    (lines : List (Except RStr Json))
    (_hwf : ∀ l ∈ lines, ∃ v, l = Except.ok v ∧ knownMethod v) :
    (handle_client tool lines).length = lines.length ∧
    (handle_client tool lines).map envelopeId = lines.map lineId := by
  refine ⟨by simp [handle_client], ?_⟩
  unfold handle_client
  rw [List.map_map]
  apply List.map_congr_left
  intro l _
  exact processLine_id tool l

/-- First request of the C6 witness. -/
def c6req1 : Json :=
  Json.obj [("id".toList, Json.str ("1".toList)),
    ("method".toList, Json.str ("initialize".toList)),
    ("params".toList, Json.obj [])]

/-- Second request of the C6 witness. -/
def c6req2 : Json :=
  Json.obj [("id".toList, Json.str ("2".toList)),
    ("method".toList, Json.str ("list_tools".toList)),
    ("params".toList, Json.obj [])]

/-- The two-request connection of the C6 witness. -/
def c6lines : List (Except RStr Json) := [.ok c6req1, .ok c6req2]

/-- The tool oracle of the C6 witness. -/
def c6tool : RStr → Json → Except RStr Json := fun _ _ => .ok Json.null

/-- C6 witness: two known-method requests, two responses, matching ids in
order. -/
theorem handle_client_one_response_witness :
    (handle_client c6tool c6lines).length = 2 ∧
    (handle_client c6tool c6lines).map envelopeId = c6lines.map lineId :=
  handle_client_one_response c6tool c6lines (by
    intro l hl
    rcases List.mem_cons.mp hl with rfl | hl
    · exact ⟨c6req1, rfl, Or.inl (by decide)⟩
    · rcases List.mem_cons.mp hl with rfl | hl
      · exact ⟨c6req2, rfl, Or.inr (Or.inl (by decide))⟩
      · exact absurd hl (List.not_mem_nil l))

/-- C7: a request line that fails JSON parsing is answered with exactly
one error envelope for that line, the connection is not closed, and the
lines before and after it are processed exactly as they would be on their
own — subsequent valid requests are still answered normally. -/
theorem handle_client_parse_failure (tool : RStr → Json → Except RStr Json)
    (pre post : List (Except RStr Json)) (msg : RStr) :
    handle_client tool (pre ++ Except.error msg :: post)
      = handle_client tool pre
        ++ invalidJsonResponse msg :: handle_client tool post := by
  simp [handle_client, processLine]

/-! ## C2 — fetch_content -/

/-- C2 (amended): for every successful `fetch_content` call, `html` is a
prefix of the body of at most `maxLength` BYTES (the whole body when it
fits), `text` is a prefix of at most 2000 bytes of the visible text —
nodes joined by single spaces, whitespace runs collapsed, trimmed — and
the whole of it when it fits, the `title` is empty when the parsed
document has no `<title>` element, and `maxLength` defaults to 60000 when
the argument is absent.  (Both truncations are byte-based and the call
panics — returns no result — when a boundary falls inside a multi-byte
character; the success hypothesis excludes exactly that case.) -/
theorem fetch_content_claim (parse : RStr → HtmlDoc) (status : Nat)
    (body url : RStr) (maxLength : Nat) (r : FetchOut)
    (h : fetch_core parse status body url maxLength = some r) :
    (∃ q, r.html ++ q = body) ∧ byteLen r.html ≤ maxLength ∧
    (byteLen body ≤ maxLength → r.html = body) ∧
    byteLen r.text ≤ 2000 ∧
    (∃ q, r.text ++ q
      = trimStr (collapseWs (joinSp (parse r.html).textNodes))) ∧
    (byteLen (trimStr (collapseWs (joinSp (parse r.html).textNodes))) ≤ 2000 →
      r.text = trimStr (collapseWs (joinSp (parse r.html).textNodes))) ∧
    ((parse r.html).titles = [] → r.title = []) ∧
    r.status = status ∧ r.url = url ∧
    (fetch_content parse status body
        (Json.obj [("url".toList, Json.str url)])
      = (fetch_core parse status body url 60000).map
          (fun o => Except.ok o.toJson)) := by
  unfold fetch_core at h
  cases h1 : byteTruncate body maxLength with
  | none => rw [h1] at h; cases h
  | some trimmed =>
      rw [h1] at h
      dsimp only at h
      cases h2 : byteTruncate (trimStr (collapseWs (joinSp
          (parse trimmed).textNodes))) 2000 with
      | none => rw [h2] at h; cases h
      | some te =>
          rw [h2] at h
          injection h with h
          subst h
          rcases byteTruncate_eq_some body maxLength trimmed h1 with
            ⟨hpre1, hlen1, hfit1⟩
          rcases byteTruncate_eq_some _ 2000 te h2 with ⟨hpre2, hlen2, hfit2⟩
          exact ⟨hpre1, hlen1, hfit1, hlen2, hpre2, hfit2,
            fun ht => by simp [ht], rfl, rfl, rfl⟩

/-- C2 counterexample: a body consisting of one two-byte character with
`maxLength = 1` — the truncation boundary falls inside the character and
the call panics instead of returning a truncated result, so the claimed
behavior does not hold for every body. -/
theorem fetch_content_claim_cex :
    fetch_content (fun _ => HtmlDoc.mk [] [] [] []) 200 ['é']
      (Json.obj [("url".toList, Json.str ("https://example.com".toList)),
        ("maxLength".toList, Json.num 1)]) = none := by
  rfl

/-- C2 witness: a two-byte ASCII body within bounds comes back whole. -/
theorem fetch_content_claim_witness :
    (∃ q, (FetchOut.mk 200 ("u".toList) [] ("ab".toList) []).html ++ q
        = "ab".toList) ∧
    byteLen (FetchOut.mk 200 ("u".toList) [] ("ab".toList) []).html ≤ 100 :=
  ⟨(fetch_content_claim (fun _ => HtmlDoc.mk [] [] [] []) 200 ("ab".toList)
      ("u".toList) 100 (FetchOut.mk 200 ("u".toList) [] ("ab".toList) [])
      rfl).1,
   (fetch_content_claim (fun _ => HtmlDoc.mk [] [] [] []) 200 ("ab".toList)
      ("u".toList) 100 (FetchOut.mk 200 ("u".toList) [] ("ab".toList) [])
      rfl).2.1⟩

/-! ## C9 — get_settings -/

/-- C9: the `get_settings` tool returns the built-in defaults exactly when
no snapshot is stored under the settings key; when a stored value exists
but fails to deserialize, the call returns an error (not the defaults);
and in every case the stored value is left unchanged. -/
theorem get_settings_claim (deser : Json → Except RStr JobSettings) :
    ((get_settings_tool none deser).1
      = .ok (Json.obj [("settings".toList, settingsToJson defaultSettings)])) ∧
    (∀ v s, deser v = .ok s →
      (get_settings_tool (some v) deser).1
        = .ok (Json.obj [("settings".toList, settingsToJson s)])) ∧
    (∀ v e, deser v = .error e →
      (get_settings_tool (some v) deser).1
        = .error ("settings parse: ".toList ++ e)) ∧
    (∀ stored, (get_settings_tool stored deser).2 = stored) := by
  refine ⟨rfl, ?_, ?_, fun _ => rfl⟩
  · intro v s hd
    simp [get_settings_tool, load_settings, hd]
  · intro v e hd
    simp [get_settings_tool, load_settings, hd]

/-- The failing deserializer of the C9 witness, standing for a stored
value that does not match the `JobSettings` shape. -/
def c9deser : Json → Except RStr JobSettings :=
  fun _ => .error ("missing field preferredTitles".toList)

/-- C9 witness: an undeserializable stored value produces an error, an
empty store produces the defaults, and the store is unchanged. -/
theorem get_settings_claim_witness :
    ((get_settings_tool (some Json.null) c9deser).1
      = .error ("settings parse: ".toList
          ++ "missing field preferredTitles".toList)) ∧
    ((get_settings_tool none c9deser).1
      = .ok (Json.obj [("settings".toList, settingsToJson defaultSettings)])) ∧
    ((get_settings_tool (some Json.null) c9deser).2 = some Json.null) :=
  ⟨(get_settings_claim c9deser).2.2.1 Json.null _ rfl,
   (get_settings_claim c9deser).1,
   (get_settings_claim c9deser).2.2.2 (some Json.null)⟩

/-! ## C10 — save_job_match -/

/-- C10: for every argument object that deserializes into a
`JobMatchInput`, the record returned and the record persisted are the same
record; it carries the input values of analysis_id, url, title, company,
location, match_score, summary and raw_excerpt verbatim, and only id and
created_at are freshly generated.  In particular match_score is neither
validated nor clamped. -/
theorem save_job_match_claim (deser : Json → Except RStr JobMatchInput)
    (freshId nowTs : RStr) (db : List JobMatch) (args : Json)
    (input : JobMatchInput) (h : deser args = .ok input) :
    ∃ saved : JobMatch,
      save_job_match_tool deser freshId nowTs db args
        = (.ok (Json.obj [("match".toList, JobMatch.toJson saved)]),
           db ++ [saved]) ∧
      saved.analysis_id = input.analysis_id ∧ saved.url = input.url ∧
      saved.title = input.title ∧ saved.company = input.company ∧
      saved.location = input.location ∧
      saved.match_score = input.match_score ∧
      saved.summary = input.summary ∧
      saved.raw_excerpt = input.raw_excerpt ∧
      saved.id = freshId ∧ saved.created_at = nowTs := by
  refine ⟨(insert_match freshId nowTs db input).1, ?_, rfl, rfl, rfl, rfl,
    rfl, rfl, rfl, rfl, rfl, rfl⟩
  simp [save_job_match_tool, h, insert_match]

/-- The input of the C10 witness: a match_score of 150, outside the
interval from 0 to 100. -/
def c10input : JobMatchInput :=
  { analysis_id := none, url := "https://example.com/job".toList,
    title := none, company := none, location := none, match_score := 150,
    summary := "ok".toList, raw_excerpt := none }

/-- The deserializer oracle of the C10 witness. -/
def c10deser : Json → Except RStr JobMatchInput := fun _ => .ok c10input

/-- C10 witness: an out-of-range score of 150 is stored and returned
unchanged. -/
theorem save_job_match_claim_witness :
    (∃ saved : JobMatch,
      save_job_match_tool c10deser ("id-1".toList) ("t-1".toList) [] Json.null
        = (.ok (Json.obj [("match".toList, JobMatch.toJson saved)]),
           [] ++ [saved]) ∧
      saved.analysis_id = c10input.analysis_id ∧ saved.url = c10input.url ∧
      saved.title = c10input.title ∧ saved.company = c10input.company ∧
      saved.location = c10input.location ∧
      saved.match_score = c10input.match_score ∧
      saved.summary = c10input.summary ∧
      saved.raw_excerpt = c10input.raw_excerpt ∧
      saved.id = "id-1".toList ∧ saved.created_at = "t-1".toList) ∧
    (100 : ℚ) < c10input.match_score :=
  ⟨save_job_match_claim c10deser ("id-1".toList) ("t-1".toList) [] Json.null
      c10input rfl,
   by norm_num [c10input]⟩

/-! ## C1 — error handling of worker steps 3, 6, 7 -/

/-- C1 (amended): an error returned to the RPC calls of workflow step 3
(get_settings), 6 (save_job_match) or 7 (set_query_params, reload_page) is
NOT absorbed: `let _ = client.send(..)?` discards only the success value,
while the `?` operator propagates the error, so the remaining steps are
skipped and `run_inner` terminates returning exactly that error (which the
top-level `run` then reports on stderr).  What is absorbed is only a step-3
result that fails to deserialize, which silently falls back to the built-in
default settings without aborting. -/
theorem run_inner_abort_claim (resp : Nat → Except RStr Json)
    (deser : Json → Option JobSettings) (parse : RStr → HtmlDoc)
    (url : RStr) (aid : Option RStr) (e : RStr) (v0 : Json)
    (h0 : resp 0 = .ok v0) :
    (resp 1 = .error e →
      run_inner resp deser parse url aid = some (trace2, .error e)) ∧
    (∀ sv cv ex, resp 1 = .ok sv → resp 2 = .ok cv →
      extract_listing (parse (strField cv ("html".toList)))
          (strField cv ("text".toList)) (strField cv ("title".toList))
        = some ex →
      ((resp 3 = .error e →
        run_inner resp deser parse url aid
          = some (trace3 url ++ [(Step.saveJobMatch,
              saveArgsOf aid url ex (match_listing ex (settingsOf deser sv)))],
             .error e)) ∧
      (∀ v3, resp 3 = .ok v3 → resp 4 = .error e →
        run_inner resp deser parse url aid
          = some (trace3 url ++ [(Step.saveJobMatch,
              saveArgsOf aid url ex (match_listing ex (settingsOf deser sv))),
              (Step.setQueryParams, sqpArgs url aid)],
             .error e)) ∧
      (∀ v3 v4, resp 3 = .ok v3 → resp 4 = .ok v4 → resp 5 = .error e →
        run_inner resp deser parse url aid
          = some (trace3 url ++ [(Step.saveJobMatch,
              saveArgsOf aid url ex (match_listing ex (settingsOf deser sv))),
              (Step.setQueryParams, sqpArgs url aid),
              (Step.reloadPage, Json.obj [])],
             .error e)))) := by
  constructor
  · intro h1
    unfold run_inner
    rw [h0, h1]
  · intro sv cv ex h1 h2 hex
    refine ⟨?_, ?_, ?_⟩
    · intro h3
      unfold run_inner
      rw [h0, h1, h2]
      dsimp only
      rw [hex, h3]
    · intro v3 h3 h4
      unfold run_inner
      rw [h0, h1, h2]
      dsimp only
      rw [hex, h3, h4]
    · intro v3 v4 h3 h4 h5
      unfold run_inner
      rw [h0, h1, h2]
      dsimp only
      rw [hex, h3, h4, h5]

/-- The C1 counterexample oracle: the server answers every round trip
except `save_job_match`, which returns an error envelope. -/
def c1resp : Nat → Except RStr Json :=
  fun n => if n = 3 then .error ("db down".toList) else .ok (Json.obj [])

/-- A settings deserializer that never succeeds (the counterexample result
object carries no settings anyway). -/
def c1deser : Json → Option JobSettings := fun _ => none

/-- A parser returning the empty document. -/
def c1parse : RStr → HtmlDoc := fun _ => ⟨[], [], [], []⟩

/-- C1 counterexample: when the `save_job_match` call of step 6 returns an
error, the workflow does NOT absorb it — `set_query_params` and
`reload_page` are never called and the run terminates returning that
error, contradicting the claim that the remaining steps still run and the
run does not terminate reporting the error. -/
theorem run_inner_abort_cex :
    ((run_inner c1resp c1deser c1parse
        ("https://example.com/job".toList) none).map
          (fun r => (r.1.map Prod.fst, r.2)))
      = some ([Step.init, Step.getSettings, Step.fetchContent,
          Step.saveJobMatch], .error ("db down".toList)) ∧
    Step.setQueryParams ∉ [Step.init, Step.getSettings, Step.fetchContent,
        Step.saveJobMatch] ∧
    Step.reloadPage ∉ [Step.init, Step.getSettings, Step.fetchContent,
        Step.saveJobMatch] := by
  refine ⟨by rfl, by decide, by decide⟩

/-- The C1 witness oracle: step 3 (get_settings) answers with an error
envelope. -/
def c1wresp : Nat → Except RStr Json :=
  fun n => if n = 1 then .error ("boom".toList) else .ok (Json.obj [])

/-- C1 witness: a get_settings error aborts the run right after step 3. -/
theorem run_inner_abort_witness :
    run_inner c1wresp c1deser c1parse ("u".toList) none
      = some (trace2, .error ("boom".toList)) :=
  (run_inner_abort_claim c1wresp c1deser c1parse ("u".toList) none
      ("boom".toList) (Json.obj []) rfl).1 rfl

end JobHunter
